import Mathlib

/-!
Verification of the gha-optimizer analysis pipeline.

Shallow embedding of the cost model (`utils/helpers.py`) and of the AI
analyzer pipeline (`analyzers/ai_analyzer.py`): recommendation
normalization, JSON response repair, the bounded-retry client and the
documentation resolver.  Python floats are modelled as rationals (ℚ), so
arithmetic is exact; Python exceptions are modelled as `Option`/`Except`
failures.  Python names are kept where Lean allows.
-/

/-- A JSON-like Python value, the element type of the schema-less
suggestion mappings returned by the reasoning service. -/
inductive JValue where
  | null
  | bool (b : Bool)
  | num (q : ℚ)
  | str (s : String)
  | arr (elems : List JValue)
  | obj (fields : List (String × JValue))

/-- The backtick character, written by code point to keep source plain. -/
def tickChar : Char := Char.ofNat 96

/-- Strip leading and trailing whitespace from a character list
(Python str.strip made executable; structural, unlike String.trim). -/
def listStrip (cs : List Char) : List Char :=
  ((cs.dropWhile Char.isWhitespace).reverse.dropWhile Char.isWhitespace).reverse

/-- Python str.strip() on a String. -/
def pyStrip (s : String) : String := String.mk (listStrip s.data)

/-- Numeric value of a digit list, most significant first. -/
def natOfDigits (ds : List Char) : ℕ :=
  ds.foldl (fun n c => 10 * n + (c.toNat - 48)) 0

/-- Split a character list at the first dot; fails when a second dot
remains (Python float() rejects two dots). -/
def splitDot (cs : List Char) : Option (List Char × List Char) :=
  match cs.span (fun c => c ≠ '.') with
  | (a, []) => some (a, [])
  | (a, _ :: b) => if b.contains '.' then none else some (a, b)

/-- Python float() on a string: optional sign, decimal digits with at
most one dot, surrounding whitespace ignored.  Exponents and the
inf/nan spellings are not modelled; no claim exercises them. -/
def pyFloatOfString (s : String) : Option ℚ :=
  let cs := listStrip s.data
  let signed : ℚ × List Char :=
    match cs with
    | '-' :: rest => (-1, rest)
    | '+' :: rest => (1, rest)
    | _ => (1, cs)
  match splitDot signed.2 with
  | none => none
  | some (a, b) =>
    if a.all Char.isDigit && b.all Char.isDigit && !(a.isEmpty && b.isEmpty) then
      some (signed.1 * ((natOfDigits a : ℚ) + (natOfDigits b : ℚ) / 10 ^ b.length))
    else none

/-- Python float(v): numbers pass through, booleans become 0/1, strings
are parsed, anything else raises TypeError (modelled as none). -/
def pyFloat : JValue → Option ℚ
  | .num q => some q
  | .bool b => some (if b then 1 else 0)
  | .str s => pyFloatOfString s
  | _ => none

/-- A raw suggestion from the reasoning service: a schema-less mapping
(Python dict) whose fields may be absent or mistyped. -/
abbrev RawSuggestion : Type := List (String × JValue)

/-- Dictionary lookup (keys are unique in a parsed JSON object, so the
first match is the Python dict lookup). -/
def jlookup : List (String × JValue) → String → Option JValue
  | [], _ => none
  | (k, v) :: rest, key => if k = key then some v else jlookup rest key

/-- Python rec.get(key, default): the stored value when the key is
present (even if null), the default otherwise. -/
def jget (rec : List (String × JValue)) (key : String) (dflt : JValue) : JValue :=
  (jlookup rec key).getD dflt

/-- GitHub Actions per-minute pricing table from
calculate_github_actions_cost (utils/helpers.py lines 192-199). -/
def runner_costs : List (String × ℚ) :=
  [("ubuntu-latest", 8/1000),
   ("ubuntu-latest-4-core", 16/1000),
   ("ubuntu-latest-8-core", 32/1000),
   ("windows-latest", 16/1000),
   ("macos-latest", 8/100),
   ("macos-latest-large", 16/100)]

/-- runner_costs.get(runner_type, 0.008): unknown classes default to the
cheapest standard rate. -/
def costPerMinute (runner_type : String) : ℚ :=
  (List.lookup runner_type runner_costs).getD (8/1000)

/-- calculate_github_actions_cost (utils/helpers.py lines 179-211):
per-run cost when runs_per_week ≤ 0, else the monthly projection with
4.33 weeks per month. -/
def calculate_github_actions_cost (time_minutes : ℚ) (runner_type : String)
    (runs_per_week : ℚ) : ℚ :=
  let cost_per_minute := costPerMinute runner_type
  if runs_per_week ≤ 0 then
    time_minutes * cost_per_minute
  else
    let monthly_runs := runs_per_week * (433/100)
    time_minutes * cost_per_minute * monthly_runs

/-- The dict returned by validate_cost_calculation.  The
recommendation message (a formatted log string) is omitted; the
runs_per_week key is optional because the zero-expected branch of the
source omits it from the returned dict. -/
structure ValidationResult where
  is_reasonable : Bool
  expected_savings : ℚ
  actual_savings : ℚ
  difference : ℚ
  percentage_difference : ℚ
  runs_per_week : Option ℚ
  validation_method : String

/-- validate_cost_calculation (utils/helpers.py lines 214-269):
substitute 50 runs/week when supplied ≤ 0, compare the claim against
the expected cost with a 25% tolerance, and force unreasonable for
claims over $1000/month or over 60 minutes per run. -/
def validate_cost_calculation (time_savings monthly_savings runs_per_week : ℚ)
    (runner_type : String) : ValidationResult :=
  let rpw := if runs_per_week ≤ 0 then (50 : ℚ) else runs_per_week
  let expected_savings := calculate_github_actions_cost time_savings runner_type rpw
  if expected_savings ≤ 0 then
    { is_reasonable := false
      expected_savings := 0
      actual_savings := monthly_savings
      difference := monthly_savings
      percentage_difference := 100
      runs_per_week := none
      validation_method := "zero_expected" }
  else
    let difference := |monthly_savings - expected_savings|
    let percentage_diff := difference / expected_savings * 100
    { is_reasonable :=
        decide (percentage_diff < 25) && decide (monthly_savings ≤ 1000)
          && decide (time_savings ≤ 60)
      expected_savings := expected_savings
      actual_savings := monthly_savings
      difference := difference
      percentage_difference := percentage_diff
      runs_per_week := some rpw
      validation_method := if rpw > 50 then "usage_based" else "conservative_default" }

/-- The repository_stats mapping as the analyzer reads it: only the two
numeric keys the analyzer arithmetic touches; absent keys are none. -/
structure RepoStats where
  runs_count : Option ℚ
  analysis_days : Option ℚ

/-- runs_per_week as computed in _parse_ai_recommendations
(ai_analyzer.py lines 462-466): guarded by analysis_days > 0 (default 0
in the guard, default 30 in the division). -/
def parseRunsPerWeek (stats : RepoStats) : ℚ :=
  if stats.analysis_days.getD 0 > 0 then
    stats.runs_count.getD 0 * 7 / stats.analysis_days.getD 30
  else 0

/-- runs_per_week as computed in _build_workflow_prompt (ai_analyzer.py
lines 100-102): an unguarded division; a present zero analysis_days
raises ZeroDivisionError, modelled as none.  The rest of the prompt is
string assembly and cannot fail. -/
def buildPromptRunsPerWeek (stats : RepoStats) : Option ℚ :=
  let days := stats.analysis_days.getD 30
  if days = 0 then none
  else some (stats.runs_count.getD 0 * 7 / days)

/-- The processed_rec dict built for every suggestion: textual fields
keep whatever value the suggestion carried (Python copies them without
conversion), numeric fields are float()-converted. -/
structure ProcessedRec where
  title : JValue
  type : JValue
  priority : JValue
  workflow_file : JValue
  job_name : JValue
  line_number : JValue
  description : JValue
  impact_time_minutes : ℚ
  monthly_cost_savings : ℚ
  confidence_score : ℚ
  implementation : JValue
  code_example : JValue

/-- Is the character-list needle a contiguous part of the haystack? -/
def listContainsSub (needle : List Char) : List Char → Bool
  | [] => needle.isEmpty
  | c :: rest => needle.isPrefixOf (c :: rest) || listContainsSub needle rest

/-- Python needle in haystack for strings. -/
def strContainsSub (needle hay : String) : Bool :=
  listContainsSub needle.data hay.data

/-- Python needle in v for a string needle: substring test on strings,
element equality on lists, key membership on dicts, TypeError
(modelled none) on numbers, booleans and null. -/
def pyInStr (needle : String) : JValue → Option Bool
  | .str s => some (strContainsSub needle s)
  | .arr xs => some (xs.any (fun v => match v with | .str t => t = needle | _ => false))
  | .obj kvs => some (kvs.any (fun kv => kv.1 = needle))
  | _ => none

/-- Python v += extra for a string extra: string concatenation,
character-wise extension for lists, TypeError (none) otherwise. -/
def pyAugAdd (v : JValue) (extra : String) : Option JValue :=
  match v with
  | .str t => some (.str (t ++ extra))
  | .arr xs => some (.arr (xs ++ extra.data.map (fun c => .str (String.mk [c]))))
  | _ => none

/-- The fixed text appended to the description of an adjusted record
(ai_analyzer.py line 514). -/
def costAdjNote : String := " (Cost calculation adjusted based on usage patterns)"

/-- The substring the adjustment guard looks for (ai_analyzer.py
line 511).  Note it does not occur in costAdjNote. -/
def costAdjGuard : String := "Cost adjusted:"

/-- One iteration of the loop in _parse_ai_recommendations
(ai_analyzer.py lines 478-527): field defaulting, float conversion,
mandatory cost validation, and the adjust-and-annotate step. -/
def processOne (runs_per_week : ℚ) (rec : RawSuggestion) : Option ProcessedRec :=
  match pyFloat (jget rec "impact_time_minutes" (.num 0)) with
  | none => none
  | some time =>
  match pyFloat (jget rec "monthly_cost_savings" (.num 0)) with
  | none => none
  | some monthly =>
  match pyFloat (jget rec "confidence_score" (.num (1/2))) with
  | none => none
  | some conf =>
    let base : ProcessedRec :=
      { title := jget rec "title" (.str "Unknown Optimization")
        type := jget rec "type" (.str "unknown")
        priority := jget rec "priority" (.str "medium")
        workflow_file := jget rec "workflow_file" (jget rec "workflow" (.str "unknown"))
        job_name := jget rec "job_name" (.str "unknown")
        line_number := jget rec "line_number" (.str "")
        description := jget rec "description" (.str "")
        impact_time_minutes := time
        monthly_cost_savings := monthly
        confidence_score := conf
        implementation := jget rec "implementation" (.str "")
        code_example := jget rec "code_example" (.str "") }
    let validation := validate_cost_calculation time monthly
      (if runs_per_week > 0 then runs_per_week else 50) "ubuntu-latest"
    if validation.is_reasonable then
      some base
    else
      match pyInStr costAdjGuard base.description with
      | none => none
      | some true => some { base with monthly_cost_savings := validation.expected_savings }
      | some false =>
        match pyAugAdd base.description costAdjNote with
        | none => none
        | some d =>
          some { base with
                 monthly_cost_savings := validation.expected_savings
                 description := d }

/-- Option-valued traversal: the Python for-loop appends each processed
record; any exception aborts the whole call, so no partial list is ever
returned. -/
def traverseOpt (f : α → Option β) : List α → Option (List β)
  | [] => some []
  | a :: as =>
    match f a with
    | none => none
    | some b =>
      match traverseOpt f as with
      | none => none
      | some bs => some (b :: bs)

/-- _parse_ai_recommendations (ai_analyzer.py lines 454-535), the
normalize() of the spec: defaults, validation and adjustment for every
raw suggestion. -/
def parse_ai_recommendations (ai_response : List RawSuggestion) (stats : RepoStats) :
    Option (List ProcessedRec) :=
  traverseOpt (processOne (parseRunsPerWeek stats)) ai_response

/-- A suggestion whose description already carries the fixed annotation
text and whose claimed cost is not reasonable (time 0 forces the
zero-expected branch). -/
def c2Rec : RawSuggestion :=
  [("description", .str "Fix (Cost calculation adjusted based on usage patterns)"),
   ("impact_time_minutes", .num 0),
   ("monthly_cost_savings", .num 5)]

/-- Statistics giving 0 runs/week, so validation uses the conservative
default of 50. -/
def c2Stats : RepoStats := ⟨some 0, some 30⟩

/-- A suggestion claiming $5/month for zero saved time. -/
def c1CexRec : RawSuggestion :=
  [("impact_time_minutes", .num 0), ("monthly_cost_savings", .num 5)]

/-- Statistics with no usage data: the conservative default of 50
runs/week applies. -/
def c1CexStats : RepoStats := ⟨none, none⟩

/-- The record normalize() emits for c1CexRec: the claimed savings is
overwritten with the zero-expected branch value 0 and the description
is annotated. -/
def c1CexOut : ProcessedRec :=
  { title := .str "Unknown Optimization"
    type := .str "unknown"
    priority := .str "medium"
    workflow_file := .str "unknown"
    job_name := .str "unknown"
    line_number := .str ""
    description := .str " (Cost calculation adjusted based on usage patterns)"
    impact_time_minutes := 0
    monthly_cost_savings := 0
    confidence_score := 1/2
    implementation := .str ""
    code_example := .str "" }

/-- A suggestion whose claimed savings equals the reference expectation
for 3 minutes at 50 runs/week (3 × 0.008 × 50 × 4.33 = 5.196). -/
def c1WitRec : RawSuggestion :=
  [("impact_time_minutes", .num 3), ("monthly_cost_savings", .num (1299/250))]

/-- The record normalize() emits for c1WitRec, unchanged because the
claim validates. -/
def c1WitOut : ProcessedRec :=
  { title := .str "Unknown Optimization"
    type := .str "unknown"
    priority := .str "medium"
    workflow_file := .str "unknown"
    job_name := .str "unknown"
    line_number := .str ""
    description := .str ""
    impact_time_minutes := 3
    monthly_cost_savings := 1299/250
    confidence_score := 1/2
    implementation := .str ""
    code_example := .str "" }

/-- A suggestion whose impact_time_minutes field is present but null:
float(None) raises TypeError. -/
def c5CexRec : RawSuggestion := [("impact_time_minutes", .null)]

/-- Does the character list start with three backticks? -/
def tickPre (cs : List Char) : Bool :=
  match cs with
  | a :: b :: c :: _ => a = tickChar && b = tickChar && c = tickChar
  | _ => false

/-- Index of the first position where three backticks start. -/
def firstTickIdx : List Char → Option ℕ
  | [] => none
  | c :: rest => if tickPre (c :: rest) then some 0 else (firstTickIdx rest).map (· + 1)

/-- Does the list start with the four letters json, case-insensitively
(the regex runs under re.IGNORECASE)? -/
def jsonPre (cs : List Char) : Bool :=
  match cs with
  | a :: b :: c :: d :: _ =>
    a.toLower = 'j' && b.toLower = 's' && c.toLower = 'o' && d.toLower = 'n'
  | _ => false

/-- Length of the leading whitespace run (the greedy backslash-s star of
the fence regex). -/
def wsCount : List Char → ℕ
  | [] => 0
  | c :: rest => if c.isWhitespace then wsCount rest + 1 else 0

/-- The capture group of the first match of the fence regex of
_extract_json_from_response (ai_analyzer.py line 553), translated from
its leftmost-match backtracking semantics: the match starts at the
first triple backtick that has another triple backtick at least 3
later; an optional json tag, then a greedy whitespace run, are skipped
(neither can contain a backtick, so skipping them never skips a
closing fence); the lazy group then runs to the next triple backtick,
giving back one trailing newline to the regex.  fenceSkip computes
where the group starts: past the fence, an optional json tag and the
greedy whitespace run. -/
def fenceSkip (cs : List Char) (i : ℕ) : ℕ :=
  let p0 := i + 3
  let p1 := if jsonPre (cs.drop p0) then p0 + 4 else p0
  p1 + wsCount (cs.drop p1)

/-- The capture group computed from the match position i: the group
runs from position fenceSkip cs i to the next triple backtick, giving
one trailing newline back to the regex. -/
def fenceGroupAt (cs : List Char) (i : ℕ) : Option (List Char) :=
  match firstTickIdx (cs.drop (fenceSkip cs i)) with
  | none => none
  | some d =>
    let seg := (cs.drop (fenceSkip cs i)).take d
    some (if seg.getLast? = some '\n' then seg.dropLast else seg)

/-- The full fence extraction: match at the first fence start. -/
def fenceGroup (cs : List Char) : Option (List Char) :=
  match firstTickIdx cs with
  | none => none
  | some i => fenceGroupAt cs i

/-- Index of the first occurrence of a character. -/
def firstIdxOf (c : Char) : List Char → Option ℕ
  | [] => none
  | a :: rest => if a = c then some 0 else (firstIdxOf c rest).map (· + 1)

/-- Index of the last occurrence of a character. -/
def lastIdxOf (c : Char) : List Char → Option ℕ
  | [] => none
  | a :: rest =>
    match lastIdxOf c rest with
    | some k => some (k + 1)
    | none => if a = c then some 0 else none

/-- The capture group of the array regex of _extract_json_from_response
(ai_analyzer.py line 563): with re.DOTALL and a greedy star, the match
runs from the first opening bracket to the last closing bracket. -/
def arraySpanExtract (cs : List Char) : Option (List Char) :=
  match firstIdxOf '[' cs with
  | none => none
  | some i =>
    match lastIdxOf ']' cs with
    | none => none
    | some j => if i < j then some ((cs.drop i).take (j - i + 1)) else none

/-- _extract_json_from_response (ai_analyzer.py lines 547-573): first
fenced block, else first-to-last bracket span, else the raw text; each
result is stripped. -/
def extract_json_from_response (content : String) : String :=
  match fenceGroup content.data with
  | some g => pyStrip (String.mk g)
  | none =>
    match arraySpanExtract content.data with
    | some a => pyStrip (String.mk a)
    | none => pyStrip content

/-- Three backticks occupy positions k, k+1, k+2. -/
abbrev TripleAt (cs : List Char) (k : ℕ) : Prop :=
  cs.get? k = some tickChar ∧ cs.get? (k+1) = some tickChar ∧ cs.get? (k+2) = some tickChar

/-- The text contains an opening fence and a closing fence at least 3
positions later. -/
abbrev HasFencePair (cs : List Char) : Prop :=
  ∃ i < cs.length, ∃ j < cs.length, TripleAt cs i ∧ TripleAt cs j ∧ i + 3 ≤ j

/-- k is the first index holding the character c. -/
abbrev IsFirstIdxOf (c : Char) (cs : List Char) (k : ℕ) : Prop :=
  cs.get? k = some c ∧ ∀ m < k, cs.get? m ≠ some c

/-- k is the last index holding the character c. -/
abbrev IsLastIdxOf (c : Char) (cs : List Char) (k : ℕ) : Prop :=
  cs.get? k = some c ∧ ∀ m < cs.length, k < m → cs.get? m ≠ some c

/-- The text contains an opening bracket with a closing bracket
somewhere after it. -/
abbrev HasBracketPair (cs : List Char) : Prop :=
  ∃ i < cs.length, ∃ j < cs.length, i < j ∧ cs.get? i = some '[' ∧ cs.get? j = some ']'

/-- What one attempt of the Anthropic call can observe of the external
client: an exception (network/auth/rate limit), a text content block,
or an envelope whose first content block has no text attribute. -/
inductive AttemptOutcome where
  | fail
  | okText (t : String)
  | okNonText

/-- The observable result of _call_anthropic_api: a recommendation
list, a propagated client error, or a propagated JSONDecodeError. -/
inductive CallOutcome where
  | success (recommendations : List JValue)
  | apiError
  | parseError

/-- Python isinstance(v, list). -/
def isArrB : JValue → Bool
  | .arr _ => true
  | _ => false

/-- The non-list wrap of _call_anthropic_api (ai_analyzer.py lines
238-240): a parsed non-list value becomes a one-element list. -/
def pyWrapList : JValue → List JValue
  | .arr xs => xs
  | v => [v]

/-- Processing of a successful envelope's text (ai_analyzer.py lines
221-242): strip, empty means no suggestions, else repair and parse
(the parse function stands for json.loads, supplied as a parameter
because it is external library code). -/
def processContent (jl : String → Option JValue) (t : String) : CallOutcome :=
  let content := pyStrip t
  if content = "" then .success []
  else
    match jl (extract_json_from_response content) with
    | none => .parseError
    | some v => .success (pyWrapList v)

/-- The observable behaviour of one _call_anthropic_api run: final
outcome, the sleep delays performed in order, and attempts made. -/
structure CallResultR where
  outcome : CallOutcome
  delays : List ℕ
  attempts : ℕ

/-- The retry loop of _call_anthropic_api (ai_analyzer.py lines
199-259): fuel counts the remaining attempts, so fuel = 0 inside a
running attempt means attempt == max_retries - 1; base delay 1 doubles
per attempt; JSONDecodeError is re-raised without retry; the final
return [] after the loop (line 259) is the fuel-exhausted case. -/
def callGo (jl : String → Option JValue) (oracle : ℕ → AttemptOutcome) :
    ℕ → ℕ → CallResultR
  | 0, _ => ⟨.success [], [], 0⟩
  | fuel + 1, attempt =>
    match oracle attempt with
    | .okNonText => ⟨.success [], [], 1⟩
    | .okText t => ⟨processContent jl t, [], 1⟩
    | .fail =>
      if fuel = 0 then ⟨.apiError, [], 1⟩
      else
        let r := callGo jl oracle fuel (attempt + 1)
        ⟨r.outcome, 2 ^ attempt :: r.delays, r.attempts + 1⟩

/-- _call_anthropic_api with max_retries = 3, starting at attempt 0. -/
def call_anthropic_api (jl : String → Option JValue) (oracle : ℕ → AttemptOutcome) :
    CallResultR :=
  callGo jl oracle 3 0

/-- The tool version (gha_optimizer/__init__.py). -/
def toolVersion : String := "0.1.0"

/-- The computed remote documentation URL for the current release
(ai_analyzer.py line 270). -/
def githubDocUrl : String :=
  "https://github.com/BohdanBykov/gha-optimizer/blob/v" ++ toolVersion
    ++ "/docs/optimization-patterns.md"

/-- What one documentation resolution can observe of its environment:
the HEAD probe result (error = RequestException), the fallback GET
result, and the packaged and development file contents (none = the
load raised). -/
structure DocEnv where
  head : Except Unit ℕ
  get : Except Unit ℕ
  packaged : Option String
  development : Option String

/-- _try_fetch_remote_documentation (ai_analyzer.py lines 289-326):
HEAD status 200 verifies; any other status falls back to a GET; any
request exception is caught and reported as failure. -/
def try_fetch_remote_documentation (env : DocEnv) : Bool :=
  match env.head with
  | .error _ => false
  | .ok code =>
    if code = 200 then true
    else
      match env.get with
      | .error _ => false
      | .ok gcode => if gcode = 200 then true else false

/-- _load_documentation_content (ai_analyzer.py lines 357-394):
forced-local mode uses only the development copy; normal mode falls
back packaged → development; total failure raises ValueError. -/
def load_documentation_content (env : DocEnv) (force_local : Bool) :
    Except String (String × String) :=
  if force_local then
    match env.development with
    | some c => .ok (c, "local development documentation")
    | none => .error "Cannot proceed without optimization patterns documentation. Local development documentation unavailable."
  else
    match env.packaged with
    | some c => .ok (c, "packaged documentation")
    | none =>
      match env.development with
      | some c => .ok (c, "local development documentation")
      | none => .error "Cannot proceed without optimization patterns documentation. All local sources are unavailable."

/-- _wrap_documentation_for_prompt (ai_analyzer.py lines 396-431); the
version-mismatch check only logs a warning and does not change the
produced text. -/
def wrap_documentation_for_prompt (doc_content github_url source : String)
    (is_debug : Bool) : String :=
  let mode := if is_debug then "LOCAL DEBUG MODE" else "LOCAL FALLBACK"
  let url_label := if is_debug then "Debug URL" else "Intended URL"
  let note := if is_debug then "Using local documentation in debug mode."
    else "Using local documentation fallback due to remote access issues."
  "\nGITHUB ACTIONS OPTIMIZATION PATTERNS DOCUMENTATION (" ++ mode ++ ")\nVersion: "
    ++ toolVersion ++ "\nSource: " ++ source ++ "\n" ++ url_label ++ ": " ++ github_url
    ++ "\n\n" ++ doc_content
    ++ "\n\nCRITICAL INSTRUCTIONS FOR AI ANALYSIS:\n1. Follow ALL guidelines and confidence scoring rules from the documentation above\n2. Use EXACT pattern matches for high confidence recommendations\n3. Apply cost calculation standards and validation requirements\n4. Reference specific line numbers and provide ready-to-use code examples\n5. Use conservative confidence scores when patterns are unclear\n\nNote: "
    ++ note ++ "\n"

/-- _create_remote_documentation_reference (ai_analyzer.py lines
328-355): the compact prompt that references the remote URL instead of
inlining the body. -/
def create_remote_documentation_reference (github_url : String) : String :=
  "\n\n**Version:** " ++ toolVersion ++ "\n**Documentation URL:** " ++ github_url
    ++ "\n\n**INSTRUCTIONS:** The comprehensive optimization patterns documentation is available at the URL above.\nIt contains detailed patterns, confidence scoring guidelines, impact calculations, and implementation examples.\n\n**KEY PATTERNS TO DETECT** (refer to full documentation for details):\n- Dependency caching (Node.js, Python, Java/Maven, Docker)\n- Job parallelization opportunities\n- Runner optimization (right-sizing)\n- Conditional execution improvements\n- Artifact optimization\n\n**CRITICAL ANALYSIS REQUIREMENTS:**\n1. Reference the documentation URL above for complete pattern details\n2. Use exact pattern matches for high confidence (0.8-1.0)\n3. Apply conservative confidence scores when patterns are unclear\n4. Provide specific line numbers and ready-to-use code examples\n5. Calculate realistic time savings and monthly costs\n6. Follow the JSON recommendation template from the documentation\n\nUse the patterns and guidelines from the documentation URL as your authoritative source.\n"

/-- _get_optimization_patterns_from_docs (ai_analyzer.py lines
261-287): debug mode forces the local copy; otherwise a verified
remote yields the compact reference, and failure falls back to the
local chain. -/
def get_optimization_patterns_from_docs (env : DocEnv) (local_docs : Bool) :
    Except String String :=
  if local_docs then
    match load_documentation_content env true with
    | .ok cs => .ok (wrap_documentation_for_prompt cs.1 githubDocUrl cs.2 true)
    | .error e => .error e
  else if try_fetch_remote_documentation env then
    .ok (create_remote_documentation_reference githubDocUrl)
  else
    match load_documentation_content env false with
    | .ok cs => .ok (wrap_documentation_for_prompt cs.1 githubDocUrl cs.2 false)
    | .error e => .error e

/-- Claim C3: for time_minutes ≥ 0 and runs_per_week > 0 the cost is
exactly time × rate × runs_per_week × 4.33, and for runs_per_week ≤ 0
it is the flat per-run cost time × rate with no monthly factor. -/
theorem c3_expected_cost_formula (t : ℚ) (r : String) (w : ℚ) (ht : 0 ≤ t) :
    (0 < w → calculate_github_actions_cost t r w = t * costPerMinute r * w * (433/100))
    ∧ (w ≤ 0 → calculate_github_actions_cost t r w = t * costPerMinute r) := by
  constructor
  · intro hw
    simp only [calculate_github_actions_cost, if_neg (not_le.mpr hw)]
    ring
  · intro hw
    simp only [calculate_github_actions_cost, if_pos hw]

/-- Witness for C3 at time 3, the standard runner, and 70 runs/week:
the monthly value is 3 × 0.008 × 70 × 4.33 = 7.2744 dollars, and the
flat mode at runs_per_week = 0 gives 0.024 dollars. -/
theorem c3_expected_cost_formula_witness :
    calculate_github_actions_cost 3 "ubuntu-latest" 70 = 9093/1250
    ∧ calculate_github_actions_cost 3 "ubuntu-latest" 0 = 3/125 := by
  have h70 := (c3_expected_cost_formula 3 "ubuntu-latest" 70 (by norm_num)).1 (by norm_num)
  have h0 := (c3_expected_cost_formula 3 "ubuntu-latest" 0 (by norm_num)).2 (by norm_num)
  rw [h70, h0]
  norm_num [costPerMinute, runner_costs, List.lookup]

/-- Counterexample to claim C4: with time 0, claim 5 and runs_per_week
-3 the expectation after substituting 50 is 0, the zero-expected branch
is taken, and the returned dict has no runs_per_week key at all, so the
substitution is not reflected in that outcome. -/
theorem c4_applied_runs_cex :
    (validate_cost_calculation 0 5 (-3) "ubuntu-latest").runs_per_week = none := by
  norm_num [validate_cost_calculation, calculate_github_actions_cost, costPerMinute,
    runner_costs, List.lookup]

/-- Claim C4 (amended): validate() substitutes 50 when supplied
runs_per_week ≤ 0 — the whole result equals the result for 50 — and the
substituted value appears in the runs_per_week field of the outcome
whenever the expectation is positive; the zero-expected outcome omits
the field. -/
theorem c4_substitute_fifty (t c w : ℚ) (r : String) (hw : w ≤ 0) :
    validate_cost_calculation t c w r = validate_cost_calculation t c 50 r
    ∧ (0 < calculate_github_actions_cost t r 50 →
        (validate_cost_calculation t c w r).runs_per_week = some 50) := by
  have hsub : validate_cost_calculation t c w r = validate_cost_calculation t c 50 r := by
    simp only [validate_cost_calculation, if_pos hw, if_neg (by norm_num : ¬(50:ℚ) ≤ 0)]
  refine ⟨hsub, fun hpos => ?_⟩
  rw [hsub]
  simp only [validate_cost_calculation, if_neg (by norm_num : ¬(50:ℚ) ≤ 0),
    if_neg (not_le.mpr hpos)]

/-- Witness for C4 (amended) at time 2, claim 10, runs_per_week -1:
the outcome coincides with the one for 50 runs/week and records the
substituted 50. -/
theorem c4_substitute_fifty_witness :
    validate_cost_calculation 2 10 (-1) "ubuntu-latest"
      = validate_cost_calculation 2 10 50 "ubuntu-latest"
    ∧ (validate_cost_calculation 2 10 (-1) "ubuntu-latest").runs_per_week = some 50 := by
  have h := c4_substitute_fifty 2 10 (-1) "ubuntu-latest" (by norm_num)
  exact ⟨h.1, h.2 (by norm_num [calculate_github_actions_cost, costPerMinute,
    runner_costs, List.lookup])⟩

/-- Claim C8 (code bug): with analysis_days present and equal to 0, the
prompt builder's unguarded division raises ZeroDivisionError while the
normalizer's guarded computation of the very same quantity treats the
zero window as 0 runs/week. -/
theorem c8_zero_window_raises :
    buildPromptRunsPerWeek ⟨some 10, some 0⟩ = none
    ∧ parseRunsPerWeek ⟨some 10, some 0⟩ = 0 := by
  norm_num [buildPromptRunsPerWeek, parseRunsPerWeek]

/-- Claim C2 (code bug): re-processing a record whose description
already carries the annotation text appends it a second time, because
the guard looks for the substring costAdjGuard, which never occurs in
the appended costAdjNote. -/
theorem c2_annotating_duplicates :
    parse_ai_recommendations [c2Rec] c2Stats
      = some [{ title := .str "Unknown Optimization"
                type := .str "unknown"
                priority := .str "medium"
                workflow_file := .str "unknown"
                job_name := .str "unknown"
                line_number := .str ""
                description := .str ("Fix (Cost calculation adjusted based on usage patterns)"
                  ++ " (Cost calculation adjusted based on usage patterns)")
                impact_time_minutes := 0
                monthly_cost_savings := 0
                confidence_score := 1/2
                implementation := .str ""
                code_example := .str "" }] := by
  have hval : (validate_cost_calculation 0 5 50 "ubuntu-latest").is_reasonable = false := by
    norm_num [validate_cost_calculation, calculate_github_actions_cost, costPerMinute,
      runner_costs, List.lookup]
  have hexp : (validate_cost_calculation 0 5 50 "ubuntu-latest").expected_savings = 0 := by
    norm_num [validate_cost_calculation, calculate_github_actions_cost, costPerMinute,
      runner_costs, List.lookup]
  have hrpw : parseRunsPerWeek c2Stats = 0 := by
    norm_num [parseRunsPerWeek, c2Stats]
  have h50 : (if (0:ℚ) > 0 then (0:ℚ) else 50) = 50 := by norm_num
  have hguard : pyInStr costAdjGuard
      (JValue.str "Fix (Cost calculation adjusted based on usage patterns)") = some false := by
    decide
  simp only [parse_ai_recommendations, traverseOpt, processOne, hrpw, h50]
  simp [c2Rec, jget, jlookup, pyFloat, hval, hexp, hguard, pyAugAdd, costAdjNote]

/-- Every element of a successful traversal comes from processing some
input element. -/
theorem traverseOpt_mem {α β : Type} {f : α → Option β} {l : List α} {out : List β}
    (h : traverseOpt f l = some out) {b : β} (hb : b ∈ out) :
    ∃ a, a ∈ l ∧ f a = some b := by
  induction l generalizing out with
  | nil =>
    simp only [traverseOpt, Option.some.injEq] at h
    subst h
    exact absurd hb (List.not_mem_nil b)
  | cons a as ih =>
    simp only [traverseOpt] at h
    cases ha : f a with
    | none =>
      simp only [ha] at h
      exact Option.noConfusion h
    | some b0 =>
      cases hrest : traverseOpt f as with
      | none =>
        simp only [ha, hrest] at h
        exact Option.noConfusion h
      | some bs =>
        simp only [ha, hrest, Option.some.injEq] at h
        subst h
        rcases List.mem_cons.mp hb with hbe | hmem
        · exact ⟨a, List.mem_cons_self a as, by rw [ha, hbe]⟩
        · obtain ⟨a2, ha2, hfa2⟩ := ih hrest hmem
          exact ⟨a2, List.mem_cons_of_mem a ha2, hfa2⟩

/-- In the positive-expectation branch, validate() reports the computed
expectation itself in expected_savings. -/
theorem validate_expected_of_pos (t c w : ℚ) (r : String) (hw : 0 < w)
    (hpos : 0 < calculate_github_actions_cost t r w) :
    (validate_cost_calculation t c w r).expected_savings
      = calculate_github_actions_cost t r w := by
  simp only [validate_cost_calculation, if_neg (not_le.mpr hw), if_neg (not_le.mpr hpos)]

/-- Validating a claim that equals the computed expectation is
reasonable, provided the expectation is positive and neither hard
override fires. -/
theorem validate_self_consistent (t w : ℚ) (r : String) (hw : 0 < w)
    (hpos : 0 < calculate_github_actions_cost t r w) (ht : t ≤ 60)
    (hle : calculate_github_actions_cost t r w ≤ 1000) :
    (validate_cost_calculation t (calculate_github_actions_cost t r w) w r).is_reasonable
      = true := by
  simp only [validate_cost_calculation, if_neg (not_le.mpr hw), if_neg (not_le.mpr hpos),
    sub_self, abs_zero, zero_div, zero_mul, Bool.and_eq_true, decide_eq_true_eq]
  exact ⟨⟨by norm_num, hle⟩, ht⟩

/-- Any record emitted by one normalizer iteration re-validates as
reasonable at the applied runs/week, provided the reference expectation
for its emitted time is positive and the hard overrides do not fire. -/
theorem processOne_emitted (rpw : ℚ) (rec : RawSuggestion) (r : ProcessedRec)
    (hp : processOne rpw rec = some r)
    (hpos : 0 < calculate_github_actions_cost r.impact_time_minutes "ubuntu-latest"
      (if rpw > 0 then rpw else 50))
    (ht : r.impact_time_minutes ≤ 60)
    (hc : r.monthly_cost_savings ≤ 1000) :
    (validate_cost_calculation r.impact_time_minutes r.monthly_cost_savings
      (if rpw > 0 then rpw else 50) "ubuntu-latest").is_reasonable = true := by
  have hw : 0 < (if rpw > 0 then rpw else 50) := by
    by_cases hq : rpw > 0
    · simpa [hq]
    · simp [hq]
  simp only [processOne] at hp
  cases e1 : pyFloat (jget rec "impact_time_minutes" (JValue.num 0)) with
  | none =>
    simp only [e1] at hp
    exact Option.noConfusion hp
  | some time =>
  cases e2 : pyFloat (jget rec "monthly_cost_savings" (JValue.num 0)) with
  | none =>
    simp only [e1, e2] at hp
    exact Option.noConfusion hp
  | some monthly =>
  cases e3 : pyFloat (jget rec "confidence_score" (JValue.num (1/2))) with
  | none =>
    simp only [e1, e2, e3] at hp
    exact Option.noConfusion hp
  | some conf =>
  simp only [e1, e2, e3] at hp
  by_cases hv : (validate_cost_calculation time monthly
      (if rpw > 0 then rpw else 50) "ubuntu-latest").is_reasonable = true
  · rw [if_pos hv] at hp
    injection hp with hpr
    subst hpr
    exact hv
  · rw [if_neg hv] at hp
    cases eg : pyInStr costAdjGuard (jget rec "description" (JValue.str "")) with
    | none =>
      simp only [eg] at hp
      exact Option.noConfusion hp
    | some bg =>
      have hmain : ∀ r2 : ProcessedRec,
          r2 = r →
          r2.impact_time_minutes = time →
          r2.monthly_cost_savings = (validate_cost_calculation time monthly
            (if rpw > 0 then rpw else 50) "ubuntu-latest").expected_savings →
          (validate_cost_calculation r.impact_time_minutes r.monthly_cost_savings
            (if rpw > 0 then rpw else 50) "ubuntu-latest").is_reasonable = true := by
        intro r2 hr2 htime hmon
        subst hr2
        rw [htime] at hpos ht ⊢
        rw [hmon] at hc ⊢
        rw [validate_expected_of_pos time monthly _ "ubuntu-latest" hw hpos] at hc ⊢
        exact validate_self_consistent time _ "ubuntu-latest" hw hpos ht hc
      cases bg with
      | true =>
        simp only [eg] at hp
        injection hp with hpr
        exact hmain _ hpr rfl rfl
      | false =>
        simp only [eg] at hp
        cases ea : pyAugAdd (jget rec "description" (JValue.str "")) costAdjNote with
        | none =>
          simp only [ea] at hp
          exact Option.noConfusion hp
        | some d =>
          simp only [ea] at hp
          injection hp with hpr
          exact hmain _ hpr rfl rfl

/-- Claim C1 (amended): every Recommendation emitted by normalize()
re-validates as reasonable at the applied runs/week, provided the
reference expectation for its emitted time is positive, its emitted
time is at most 60 minutes, and its corrected monthly savings is at
most $1000; outside those conditions (zero expectation or a hard
override) re-validation reports not reasonable. -/
theorem c1_normalize_revalidates (recs : List RawSuggestion) (stats : RepoStats)
    (out : List ProcessedRec) (h : parse_ai_recommendations recs stats = some out)
    (r : ProcessedRec) (hr : r ∈ out)
    (hpos : 0 < calculate_github_actions_cost r.impact_time_minutes "ubuntu-latest"
      (if parseRunsPerWeek stats > 0 then parseRunsPerWeek stats else 50))
    (ht : r.impact_time_minutes ≤ 60)
    (hc : r.monthly_cost_savings ≤ 1000) :
    (validate_cost_calculation r.impact_time_minutes r.monthly_cost_savings
      (if parseRunsPerWeek stats > 0 then parseRunsPerWeek stats else 50)
      "ubuntu-latest").is_reasonable = true := by
  obtain ⟨rec, _, hrec⟩ := traverseOpt_mem h hr
  exact processOne_emitted (parseRunsPerWeek stats) rec r hrec hpos ht hc

/-- Counterexample to claim C1 as stated: normalize() emits c1CexOut
for the zero-time suggestion, yet re-running validate() on the emitted
time 0 and corrected savings 0 at the applied 50 runs/week is NOT
reasonable (the expectation is 0 again). -/
theorem c1_revalidate_cex :
    parse_ai_recommendations [c1CexRec] c1CexStats = some [c1CexOut]
    ∧ (validate_cost_calculation c1CexOut.impact_time_minutes
        c1CexOut.monthly_cost_savings 50 "ubuntu-latest").is_reasonable = false := by
  constructor
  · have hval : (validate_cost_calculation 0 5 50 "ubuntu-latest").is_reasonable = false := by
      norm_num [validate_cost_calculation, calculate_github_actions_cost, costPerMinute,
        runner_costs, List.lookup]
    have hexp : (validate_cost_calculation 0 5 50 "ubuntu-latest").expected_savings = 0 := by
      norm_num [validate_cost_calculation, calculate_github_actions_cost, costPerMinute,
        runner_costs, List.lookup]
    have hrpw : parseRunsPerWeek c1CexStats = 0 := by
      norm_num [parseRunsPerWeek, c1CexStats]
    have h50 : (if (0:ℚ) > 0 then (0:ℚ) else 50) = 50 := by norm_num
    have hguard : pyInStr costAdjGuard (JValue.str "") = some false := by decide
    simp only [parse_ai_recommendations, traverseOpt, processOne, hrpw, h50]
    simp [c1CexRec, c1CexOut, jget, jlookup, pyFloat, hval, hexp, hguard, pyAugAdd,
      costAdjNote]
  · norm_num [c1CexOut, validate_cost_calculation, calculate_github_actions_cost,
      costPerMinute, runner_costs, List.lookup]

/-- Witness for C1 (amended): on the emitted record for c1WitRec all
three hypotheses hold concretely and re-validation is reasonable. -/
theorem c1_normalize_revalidates_witness :
    (validate_cost_calculation c1WitOut.impact_time_minutes
      c1WitOut.monthly_cost_savings
      (if parseRunsPerWeek c1CexStats > 0 then parseRunsPerWeek c1CexStats else 50)
      "ubuntu-latest").is_reasonable = true := by
  have hval : (validate_cost_calculation 3 (1299/250) 50 "ubuntu-latest").is_reasonable
      = true := by
    norm_num [validate_cost_calculation, calculate_github_actions_cost, costPerMinute,
      runner_costs, List.lookup]
  have hrpw : parseRunsPerWeek c1CexStats = 0 := by
    norm_num [parseRunsPerWeek, c1CexStats]
  have h50 : (if (0:ℚ) > 0 then (0:ℚ) else 50) = 50 := by norm_num
  have hout : parse_ai_recommendations [c1WitRec] c1CexStats = some [c1WitOut] := by
    simp only [parse_ai_recommendations, traverseOpt, processOne, hrpw, h50]
    simp [c1WitRec, c1WitOut, jget, jlookup, pyFloat, hval]
  refine c1_normalize_revalidates [c1WitRec] c1CexStats [c1WitOut] hout c1WitOut
    (List.mem_singleton.mpr rfl) ?_ ?_ ?_
  · rw [hrpw, h50]
    norm_num [c1WitOut, calculate_github_actions_cost, costPerMinute, runner_costs,
      List.lookup]
  · norm_num [c1WitOut]
  · norm_num [c1WitOut]

/-- One normalizer iteration succeeds on any suggestion whose numeric
fields, when present, convert under float(), and whose description,
when present, is a string; the fields not touched by the adjustment
step pass through from the defaulted lookup. -/
theorem processOne_total (rpw : ℚ) (rec : RawSuggestion)
    (h1 : ∀ v, jlookup rec "impact_time_minutes" = some v → (pyFloat v).isSome = true)
    (h2 : ∀ v, jlookup rec "monthly_cost_savings" = some v → (pyFloat v).isSome = true)
    (h3 : ∀ v, jlookup rec "confidence_score" = some v → (pyFloat v).isSome = true)
    (h4 : ∀ v, jlookup rec "description" = some v → ∃ s, v = JValue.str s) :
    ∃ r, processOne rpw rec = some r
      ∧ r.title = jget rec "title" (.str "Unknown Optimization")
      ∧ r.type = jget rec "type" (.str "unknown")
      ∧ r.priority = jget rec "priority" (.str "medium")
      ∧ r.job_name = jget rec "job_name" (.str "unknown")
      ∧ pyFloat (jget rec "impact_time_minutes" (.num 0)) = some r.impact_time_minutes
      ∧ pyFloat (jget rec "confidence_score" (.num (1/2))) = some r.confidence_score
      ∧ r.implementation = jget rec "implementation" (.str "") := by
  have ht : ∃ t, pyFloat (jget rec "impact_time_minutes" (JValue.num 0)) = some t := by
    cases hl : jlookup rec "impact_time_minutes" with
    | none => exact ⟨0, by simp [jget, hl, pyFloat]⟩
    | some v =>
      have := h1 v hl
      simp only [jget, hl, Option.getD_some]
      exact Option.isSome_iff_exists.mp this
  have hm : ∃ m, pyFloat (jget rec "monthly_cost_savings" (JValue.num 0)) = some m := by
    cases hl : jlookup rec "monthly_cost_savings" with
    | none => exact ⟨0, by simp [jget, hl, pyFloat]⟩
    | some v =>
      have := h2 v hl
      simp only [jget, hl, Option.getD_some]
      exact Option.isSome_iff_exists.mp this
  have hcf : ∃ c, pyFloat (jget rec "confidence_score" (JValue.num (1/2))) = some c := by
    cases hl : jlookup rec "confidence_score" with
    | none => exact ⟨1/2, by simp [jget, hl, pyFloat]⟩
    | some v =>
      have := h3 v hl
      simp only [jget, hl, Option.getD_some]
      exact Option.isSome_iff_exists.mp this
  have hd : ∃ s, jget rec "description" (JValue.str "") = JValue.str s := by
    cases hl : jlookup rec "description" with
    | none => exact ⟨"", by simp [jget, hl]⟩
    | some v =>
      obtain ⟨s, hs⟩ := h4 v hl
      exact ⟨s, by simp [jget, hl, hs]⟩
  obtain ⟨t, et⟩ := ht
  obtain ⟨m, em⟩ := hm
  obtain ⟨c, ec⟩ := hcf
  obtain ⟨s, es⟩ := hd
  simp only [processOne, et, em, ec]
  by_cases hv : (validate_cost_calculation t m
      (if rpw > 0 then rpw else 50) "ubuntu-latest").is_reasonable = true
  · rw [if_pos hv]
    exact ⟨_, rfl, rfl, rfl, rfl, rfl, rfl, rfl, rfl⟩
  · rw [if_neg hv, es]
    simp only [pyInStr]
    cases strContainsSub costAdjGuard s with
    | true => exact ⟨_, rfl, rfl, rfl, rfl, rfl, rfl, rfl, rfl⟩
    | false =>
      simp only [pyAugAdd]
      exact ⟨_, rfl, rfl, rfl, rfl, rfl, rfl, rfl, rfl⟩

/-- Claim C5 (amended): normalize() is total and fully populating over
suggestions whose fields are absent or well-typed — numeric fields
float()-convertible when present, description a string when present —
and applies the stated defaults to absent fields; a present
non-convertible numeric field (for example null) raises instead. -/
theorem c5_defaults_total (rec : RawSuggestion) (stats : RepoStats)
    (h1 : ∀ v, jlookup rec "impact_time_minutes" = some v → (pyFloat v).isSome = true)
    (h2 : ∀ v, jlookup rec "monthly_cost_savings" = some v → (pyFloat v).isSome = true)
    (h3 : ∀ v, jlookup rec "confidence_score" = some v → (pyFloat v).isSome = true)
    (h4 : ∀ v, jlookup rec "description" = some v → ∃ s, v = JValue.str s) :
    ∃ r, parse_ai_recommendations [rec] stats = some [r]
      ∧ (jlookup rec "title" = none → r.title = .str "Unknown Optimization")
      ∧ (jlookup rec "type" = none → r.type = .str "unknown")
      ∧ (jlookup rec "priority" = none → r.priority = .str "medium")
      ∧ (jlookup rec "job_name" = none → r.job_name = .str "unknown")
      ∧ (jlookup rec "impact_time_minutes" = none → r.impact_time_minutes = 0)
      ∧ (jlookup rec "confidence_score" = none → r.confidence_score = 1/2)
      ∧ (jlookup rec "implementation" = none → r.implementation = .str "") := by
  obtain ⟨r, hr, t1, t2, t3, t4, t5, t6, t7⟩ :=
    processOne_total (parseRunsPerWeek stats) rec h1 h2 h3 h4
  refine ⟨r, ?_, ?_, ?_, ?_, ?_, ?_, ?_, ?_⟩
  · simp [parse_ai_recommendations, traverseOpt, hr]
  · intro hl
    rw [t1]
    simp [jget, hl]
  · intro hl
    rw [t2]
    simp [jget, hl]
  · intro hl
    rw [t3]
    simp [jget, hl]
  · intro hl
    rw [t4]
    simp [jget, hl]
  · intro hl
    rw [jget, hl] at t5
    simp only [Option.getD_none, pyFloat, Option.some.injEq] at t5
    exact t5.symm
  · intro hl
    rw [jget, hl] at t6
    simp only [Option.getD_none, pyFloat, Option.some.injEq] at t6
    exact t6.symm
  · intro hl
    rw [t7]
    simp [jget, hl]

/-- Counterexample to claim C5 as stated: a mistyped (null) numeric
field makes normalize() raise — the whole call fails instead of
emitting a defaulted Recommendation. -/
theorem c5_mistyped_cex :
    parse_ai_recommendations [c5CexRec] c1CexStats = none := by
  simp [parse_ai_recommendations, traverseOpt, processOne, c5CexRec, jget, jlookup, pyFloat]

/-- Witness for C5 (amended): the empty suggestion (every field
absent) is processed successfully and the emitted record carries the
placeholder title. -/
theorem c5_defaults_total_witness :
    (parse_ai_recommendations [([] : RawSuggestion)] c1CexStats).isSome = true := by
  obtain ⟨r, hr, -⟩ := c5_defaults_total ([] : RawSuggestion) c1CexStats
    (fun v h => nomatch h) (fun v h => nomatch h) (fun v h => nomatch h)
    (fun v h => nomatch h)
  rw [hr]
  rfl

/-- tickPre reads exactly the first three positions. -/
theorem tickPre_eq_true_iff (cs : List Char) :
    tickPre cs = true ↔
      cs.get? 0 = some tickChar ∧ cs.get? 1 = some tickChar ∧ cs.get? 2 = some tickChar := by
  match cs with
  | [] => simp [tickPre]
  | [a] => simp [tickPre]
  | [a, b] => simp [tickPre]
  | a :: b :: c :: rest =>
    simp [tickPre, Bool.and_eq_true, decide_eq_true_eq, and_assoc]

/-- Three backticks start at position k exactly when tickPre holds of
the k-th suffix. -/
theorem tickPre_drop_iff (cs : List Char) (k : ℕ) :
    tickPre (cs.drop k) = true ↔ TripleAt cs k := by
  rw [tickPre_eq_true_iff]
  simp [TripleAt, List.get?_drop, List.get?_eq_getElem?]

/-- When the scan finds no fence start, no suffix starts with one. -/
theorem firstTickIdx_none_spec (cs : List Char) (h : firstTickIdx cs = none) :
    ∀ m, tickPre (cs.drop m) = false := by
  induction cs with
  | nil => intro m; simp [List.drop_nil, tickPre]
  | cons a rest ih =>
    intro m
    simp only [firstTickIdx] at h
    by_cases hp : tickPre (a :: rest) = true
    · rw [if_pos hp] at h
      exact Option.noConfusion h
    · rw [if_neg hp] at h
      have hr : firstTickIdx rest = none := by
        cases hfr : firstTickIdx rest with
        | none => rfl
        | some k =>
          rw [hfr] at h
          exact Option.noConfusion h
      cases m with
      | zero =>
        rw [List.drop_zero]
        exact Bool.eq_false_iff.mpr hp
      | succ m0 =>
        rw [List.drop_succ_cons]
        exact ih hr m0

/-- The scan returns the least position where a fence starts. -/
theorem firstTickIdx_some_spec (cs : List Char) (k : ℕ) (h : firstTickIdx cs = some k) :
    tickPre (cs.drop k) = true ∧ ∀ m < k, tickPre (cs.drop m) = false := by
  induction cs generalizing k with
  | nil => exact Option.noConfusion h
  | cons a rest ih =>
    simp only [firstTickIdx] at h
    by_cases hp : tickPre (a :: rest) = true
    · rw [if_pos hp] at h
      injection h with hk
      subst hk
      exact ⟨by rwa [List.drop_zero], fun m hm => absurd hm (Nat.not_lt_zero m)⟩
    · rw [if_neg hp] at h
      cases hfr : firstTickIdx rest with
      | none =>
        rw [hfr] at h
        exact Option.noConfusion h
      | some k0 =>
        rw [hfr, Option.map_some'] at h
        injection h with hk
        subst hk
        obtain ⟨h1, h2⟩ := ih k0 hfr
        refine ⟨by rwa [List.drop_succ_cons], fun m hm => ?_⟩
        cases m with
        | zero =>
          rw [List.drop_zero]
          exact Bool.eq_false_iff.mpr hp
        | succ m0 =>
          rw [List.drop_succ_cons]
          exact h2 m0 (Nat.succ_lt_succ_iff.mp hm)

/-- The scan succeeds exactly when some suffix starts with a fence. -/
theorem firstTickIdx_isSome_iff (cs : List Char) :
    (firstTickIdx cs).isSome = true ↔ ∃ k, tickPre (cs.drop k) = true := by
  constructor
  · intro h
    obtain ⟨k, hk⟩ := Option.isSome_iff_exists.mp h
    exact ⟨k, (firstTickIdx_some_spec cs k hk).1⟩
  · rintro ⟨k, hk⟩
    cases hfi : firstTickIdx cs with
    | none => exact absurd hk (by simp [firstTickIdx_none_spec cs hfi k])
    | some i => rfl

/-- A character whose lowercase form differs from the backtick is not
the backtick. -/
theorem toLower_ne_tick {x c : Char} (h : x.toLower = c) (hc : tickChar.toLower ≠ c) :
    x ≠ tickChar := fun he => hc (he ▸ h)

/-- No position of a json tag holds a backtick. -/
theorem jsonPre_no_tick (l : List Char) (h : jsonPre l = true) (t : ℕ) (htlt : t < 4) :
    l.get? t ≠ some tickChar := by
  match l with
  | [] => simp [jsonPre] at h
  | [a] => simp [jsonPre] at h
  | [a, b] => simp [jsonPre] at h
  | [a, b, c] => simp [jsonPre] at h
  | a :: b :: c :: d :: rest =>
    simp only [jsonPre, Bool.and_eq_true, decide_eq_true_eq] at h
    obtain ⟨⟨⟨ha, hb⟩, hc⟩, hd⟩ := h
    interval_cases t
    · simpa using toLower_ne_tick ha (by decide)
    · simpa using toLower_ne_tick hb (by decide)
    · simpa using toLower_ne_tick hc (by decide)
    · simpa using toLower_ne_tick hd (by decide)

/-- Every position inside the counted whitespace run holds a
whitespace character. -/
theorem wsCount_ws (l : List Char) (t : ℕ) (h : t < wsCount l) :
    ∀ c, l.get? t = some c → c.isWhitespace = true := by
  induction l generalizing t with
  | nil => simp [wsCount] at h
  | cons a rest ih =>
    simp only [wsCount] at h
    by_cases hw : a.isWhitespace = true
    · rw [if_pos hw] at h
      cases t with
      | zero =>
        intro c hcg
        injection hcg with hcg2
        rw [← hcg2]
        exact hw
      | succ t0 => exact ih t0 (Nat.succ_lt_succ_iff.mp h)
    · rw [if_neg hw] at h
      exact absurd h (Nat.not_lt_zero t)

/-- The group start is past the opening fence. -/
theorem le_fenceSkip (cs : List Char) (i : ℕ) : i + 3 ≤ fenceSkip cs i := by
  simp only [fenceSkip]
  split <;> omega

/-- No backtick occurs strictly between the opening fence and the
group start: the skipped region holds only json-tag letters and
whitespace. -/
theorem fence_region_no_tick (cs : List Char) (i m : ℕ)
    (hm1 : i + 3 ≤ m) (hm2 : m < fenceSkip cs i) :
    cs.get? m ≠ some tickChar := by
  simp only [fenceSkip] at hm2
  by_cases hj : jsonPre (cs.drop (i + 3)) = true
  · rw [if_pos hj] at hm2
    by_cases hm3 : m < i + 3 + 4
    · have ht : m - (i + 3) < 4 := by omega
      have hg : cs.get? m = (cs.drop (i + 3)).get? (m - (i + 3)) := by
        rw [List.get?_drop]
        congr 1
        omega
      rw [hg]
      exact jsonPre_no_tick _ hj _ ht
    · push_neg at hm3
      have ht : m - (i + 3 + 4) < wsCount (cs.drop (i + 3 + 4)) := by omega
      have hg : cs.get? m = (cs.drop (i + 3 + 4)).get? (m - (i + 3 + 4)) := by
        rw [List.get?_drop]
        congr 1
        omega
      intro hEq
      have hws := wsCount_ws _ _ ht tickChar (by rw [← hg]; exact hEq)
      exact absurd hws (by decide)
  · rw [if_neg hj] at hm2
    have ht : m - (i + 3) < wsCount (cs.drop (i + 3)) := by omega
    have hg : cs.get? m = (cs.drop (i + 3)).get? (m - (i + 3)) := by
      rw [List.get?_drop]
      congr 1
      omega
    intro hEq
    have hws := wsCount_ws _ _ ht tickChar (by rw [← hg]; exact hEq)
    exact absurd hws (by decide)

/-- The fence extraction succeeds exactly when the text holds an
opening fence with a closing fence at least three positions later. -/
theorem fenceGroup_isSome_iff (cs : List Char) :
    (fenceGroup cs).isSome = true ↔ HasFencePair cs := by
  constructor
  · intro h
    cases hfi : firstTickIdx cs with
    | none => simp [fenceGroup, hfi] at h
    | some i =>
      cases hfc : firstTickIdx (cs.drop (fenceSkip cs i)) with
      | none => simp [fenceGroup, fenceGroupAt, hfi, hfc] at h
      | some d =>
        have hi := (firstTickIdx_some_spec cs i hfi).1
        have hd := (firstTickIdx_some_spec _ d hfc).1
        rw [List.drop_drop] at hd
        have hTi : TripleAt cs i := (tickPre_drop_iff cs i).mp hi
        have hTd : TripleAt cs (fenceSkip cs i + d) := (tickPre_drop_iff _ _).mp hd
        have hilen : i < cs.length := (List.get?_eq_some.mp hTi.1).1
        have hdlen : fenceSkip cs i + d < cs.length := (List.get?_eq_some.mp hTd.1).1
        have hle := le_fenceSkip cs i
        exact ⟨i, hilen, fenceSkip cs i + d, hdlen, hTi, hTd, by omega⟩
  · rintro ⟨i, hilen, j, hjlen, hTi, hTj, hij⟩
    have hpi : tickPre (cs.drop i) = true := (tickPre_drop_iff cs i).mpr hTi
    cases hfi : firstTickIdx cs with
    | none => exact absurd hpi (by simp [firstTickIdx_none_spec cs hfi i])
    | some i0 =>
      obtain ⟨h1, h2⟩ := firstTickIdx_some_spec cs i0 hfi
      have hi0 : i0 ≤ i := by
        by_contra hlt
        push_neg at hlt
        exact absurd hpi (by simp [h2 i hlt])
      have hj3 : i0 + 3 ≤ j := by omega
      have hjp2 : fenceSkip cs i0 ≤ j := by
        by_contra hlt
        push_neg at hlt
        exact fence_region_no_tick cs i0 j hj3 hlt hTj.1
      have hd : tickPre ((cs.drop (fenceSkip cs i0)).drop (j - fenceSkip cs i0)) = true := by
        rw [List.drop_drop]
        have hsum : fenceSkip cs i0 + (j - fenceSkip cs i0) = j := by omega
        rw [hsum]
        exact (tickPre_drop_iff cs j).mpr hTj
      have hsome := (firstTickIdx_isSome_iff (cs.drop (fenceSkip cs i0))).mpr ⟨_, hd⟩
      cases hfc : firstTickIdx (cs.drop (fenceSkip cs i0)) with
      | none => rw [hfc] at hsome; simp at hsome
      | some d => simp [fenceGroup, fenceGroupAt, hfi, hfc]

/-- When the character scan finds nothing, no position holds c. -/
theorem firstIdxOf_none_spec (c : Char) (cs : List Char) (h : firstIdxOf c cs = none) :
    ∀ m, cs.get? m ≠ some c := by
  induction cs with
  | nil => intro m; simp
  | cons a rest ih =>
    simp only [firstIdxOf] at h
    by_cases ha : a = c
    · rw [if_pos ha] at h
      exact Option.noConfusion h
    · rw [if_neg ha] at h
      have hr : firstIdxOf c rest = none := by
        cases hfr : firstIdxOf c rest with
        | none => rfl
        | some k => rw [hfr] at h; exact Option.noConfusion h
      intro m
      cases m with
      | zero => simpa using ha
      | succ m0 => exact ih hr m0

/-- The character scan returns the least position holding c. -/
theorem firstIdxOf_some_spec (c : Char) (cs : List Char) (k : ℕ)
    (h : firstIdxOf c cs = some k) :
    cs.get? k = some c ∧ ∀ m < k, cs.get? m ≠ some c := by
  induction cs generalizing k with
  | nil => exact Option.noConfusion h
  | cons a rest ih =>
    simp only [firstIdxOf] at h
    by_cases ha : a = c
    · rw [if_pos ha] at h
      injection h with hk
      subst hk
      exact ⟨by simp [ha], fun m hm => absurd hm (Nat.not_lt_zero m)⟩
    · rw [if_neg ha] at h
      cases hfr : firstIdxOf c rest with
      | none => rw [hfr] at h; exact Option.noConfusion h
      | some k0 =>
        rw [hfr, Option.map_some'] at h
        injection h with hk
        subst hk
        obtain ⟨h1, h2⟩ := ih k0 hfr
        refine ⟨h1, fun m hm => ?_⟩
        cases m with
        | zero => simpa using ha
        | succ m0 => exact h2 m0 (Nat.succ_lt_succ_iff.mp hm)

/-- When the backward scan finds nothing, no position holds c. -/
theorem lastIdxOf_none_spec (c : Char) (cs : List Char) (h : lastIdxOf c cs = none) :
    ∀ m, cs.get? m ≠ some c := by
  induction cs with
  | nil => intro m; simp
  | cons a rest ih =>
    simp only [lastIdxOf] at h
    cases hfr : lastIdxOf c rest with
    | some k => rw [hfr] at h; exact Option.noConfusion h
    | none =>
      rw [hfr] at h
      by_cases ha : a = c
      · rw [if_pos ha] at h
        exact Option.noConfusion h
      · rw [if_neg ha] at h
        intro m
        cases m with
        | zero => simpa using ha
        | succ m0 => exact ih hfr m0

/-- The backward scan returns the greatest position holding c. -/
theorem lastIdxOf_some_spec (c : Char) (cs : List Char) (k : ℕ)
    (h : lastIdxOf c cs = some k) :
    cs.get? k = some c ∧ ∀ m, k < m → cs.get? m ≠ some c := by
  induction cs generalizing k with
  | nil => exact Option.noConfusion h
  | cons a rest ih =>
    simp only [lastIdxOf] at h
    cases hfr : lastIdxOf c rest with
    | some k0 =>
      rw [hfr] at h
      injection h with hk
      subst hk
      obtain ⟨h1, h2⟩ := ih k0 hfr
      refine ⟨h1, fun m hm => ?_⟩
      cases m with
      | zero => exact absurd hm (Nat.not_lt_zero _)
      | succ m0 => exact h2 m0 (Nat.succ_lt_succ_iff.mp hm)
    | none =>
      rw [hfr] at h
      by_cases ha : a = c
      · rw [if_pos ha] at h
        injection h with hk
        subst hk
        refine ⟨by simp [ha], fun m hm => ?_⟩
        cases m with
        | zero => exact absurd hm (Nat.not_lt_zero _)
        | succ m0 => exact lastIdxOf_none_spec c rest hfr m0
      · rw [if_neg ha] at h
        exact Option.noConfusion h

/-- The scan agrees with the first-index specification. -/
theorem firstIdxOf_eq_of_isFirst (c : Char) (cs : List Char) (k : ℕ)
    (h : IsFirstIdxOf c cs k) : firstIdxOf c cs = some k := by
  cases hf : firstIdxOf c cs with
  | none => exact absurd h.1 (firstIdxOf_none_spec c cs hf k)
  | some k0 =>
    obtain ⟨hg, hmin⟩ := firstIdxOf_some_spec c cs k0 hf
    rcases Nat.lt_trichotomy k0 k with hlt | heq | hgt
    · exact absurd hg (h.2 k0 hlt)
    · rw [heq]
    · exact absurd h.1 (hmin k hgt)

/-- The backward scan agrees with the last-index specification. -/
theorem lastIdxOf_eq_of_isLast (c : Char) (cs : List Char) (k : ℕ)
    (h : IsLastIdxOf c cs k) : lastIdxOf c cs = some k := by
  cases hf : lastIdxOf c cs with
  | none => exact absurd h.1 (lastIdxOf_none_spec c cs hf k)
  | some k0 =>
    obtain ⟨hg, hmax⟩ := lastIdxOf_some_spec c cs k0 hf
    rcases Nat.lt_trichotomy k0 k with hlt | heq | hgt
    · exact absurd h.1 (hmax k hlt)
    · rw [heq]
    · exact absurd hg (h.2 k0 (List.get?_eq_some.mp hg).1 hgt)

/-- The array regex group runs from the first opening bracket to the
last closing bracket. -/
theorem arraySpan_eq (cs : List Char) (i j : ℕ)
    (hi : IsFirstIdxOf '[' cs i) (hj : IsLastIdxOf ']' cs j) (hij : i < j) :
    arraySpanExtract cs = some ((cs.drop i).take (j - i + 1)) := by
  simp only [arraySpanExtract, firstIdxOf_eq_of_isFirst _ _ _ hi,
    lastIdxOf_eq_of_isLast _ _ _ hj, if_pos hij]

/-- Without a bracket pair the array regex does not match. -/
theorem arraySpan_none (cs : List Char) (h : ¬ HasBracketPair cs) :
    arraySpanExtract cs = none := by
  cases hf : firstIdxOf '[' cs with
  | none => simp [arraySpanExtract, hf]
  | some i =>
    cases hl : lastIdxOf ']' cs with
    | none => simp [arraySpanExtract, hf, hl]
    | some j =>
      simp only [arraySpanExtract, hf, hl]
      have hgi := (firstIdxOf_some_spec _ _ _ hf).1
      have hgj := (lastIdxOf_some_spec _ _ _ hl).1
      have hnij : ¬ i < j := fun hij =>
        h ⟨i, (List.get?_eq_some.mp hgi).1, j, (List.get?_eq_some.mp hgj).1, hij, hgi, hgj⟩
      rw [if_neg hnij]

/-- Claim C6 (amended): extraction follows the stated order, but (a)
the fenced-block result is the regex capture group — after an optional
json tag, leading whitespace and one trailing newline are consumed —
stripped, and (b) with no fence the result is the stripped span from
the FIRST opening bracket to the LAST closing bracket (the first
top-level array span only when the text has a single such span); (c)
with neither pattern the stripped raw text passes through. -/
theorem c6_extract_order (s : String) :
    ((fenceGroup s.data).isSome = true ↔ HasFencePair s.data)
    ∧ (∀ g, fenceGroup s.data = some g →
        extract_json_from_response s = pyStrip (String.mk g))
    ∧ (¬ HasFencePair s.data → ∀ i j, IsFirstIdxOf '[' s.data i →
        IsLastIdxOf ']' s.data j → i < j →
        extract_json_from_response s
          = pyStrip (String.mk ((s.data.drop i).take (j - i + 1))))
    ∧ (¬ HasFencePair s.data → ¬ HasBracketPair s.data →
        extract_json_from_response s = pyStrip s) := by
  have hnone : ¬ HasFencePair s.data → fenceGroup s.data = none := by
    intro hnf
    cases hfg : fenceGroup s.data with
    | none => rfl
    | some g =>
      exact absurd ((fenceGroup_isSome_iff s.data).mp (by rw [hfg]; rfl)) hnf
  refine ⟨fenceGroup_isSome_iff s.data, ?_, ?_, ?_⟩
  · intro g hg
    simp [extract_json_from_response, hg]
  · intro hnf i j hi hj hij
    simp [extract_json_from_response, hnone hnf, arraySpan_eq s.data i j hi hj hij]
  · intro hnf hnb
    simp [extract_json_from_response, hnone hnf, arraySpan_none s.data hnb]

/-- Counterexample to claim C6 as stated: in text with two separate
top-level arrays and no fence, the greedy array regex returns the span
from the first opening to the LAST closing bracket, not the first
top-level bracketed array span "[1]". -/
theorem c6_greedy_array_cex :
    extract_json_from_response "see [1] and [2]" = "[1] and [2]" := by decide

/-- Witness for C6 (amended): on fence-free text the first-to-last
bracket span is returned, stripped. -/
theorem c6_extract_order_witness :
    extract_json_from_response "a [1] b [2]" = "[1] b [2]" := by
  have h := (c6_extract_order "a [1] b [2]").2.2.1 (by decide) 2 10 (by decide) (by decide)
    (by decide)
  rw [h]
  rfl

/-- Claim C7: the call makes at most 3 attempts; each retried failure
sleeps first, with delays doubling from 1; failing all three attempts
propagates the client error; and a JSON parse failure of the response
is surfaced immediately on whichever attempt it occurs, never
retried. -/
theorem c7_retry_policy (jl : String → Option JValue) (oracle : ℕ → AttemptOutcome) :
    (call_anthropic_api jl oracle).attempts ≤ 3
    ∧ (call_anthropic_api jl oracle).attempts
        = (call_anthropic_api jl oracle).delays.length + 1
    ∧ (call_anthropic_api jl oracle).delays
        = (List.range (call_anthropic_api jl oracle).delays.length).map (2 ^ ·)
    ∧ (oracle 0 = .fail → oracle 1 = .fail → oracle 2 = .fail →
        (call_anthropic_api jl oracle).outcome = .apiError)
    ∧ (∀ t, oracle 0 = .okText t → processContent jl t = .parseError →
        (call_anthropic_api jl oracle).outcome = .parseError
          ∧ (call_anthropic_api jl oracle).attempts = 1)
    ∧ (oracle 0 = .fail → ∀ t, oracle 1 = .okText t → processContent jl t = .parseError →
        (call_anthropic_api jl oracle).outcome = .parseError
          ∧ (call_anthropic_api jl oracle).attempts = 2)
    ∧ (oracle 0 = .fail → oracle 1 = .fail → ∀ t, oracle 2 = .okText t →
        processContent jl t = .parseError →
        (call_anthropic_api jl oracle).outcome = .parseError
          ∧ (call_anthropic_api jl oracle).attempts = 3) := by
  cases h0 : oracle 0 with
  | okText t0 =>
    have hres : call_anthropic_api jl oracle
        = ⟨processContent jl t0, [], 1⟩ := by
      simp [call_anthropic_api, callGo, h0]
    refine ⟨by simp [hres], by rw [hres]; rfl, by rw [hres]; rfl, ?_, ?_, ?_, ?_⟩
    · intro hf0
      exact AttemptOutcome.noConfusion hf0
    · intro t htx hpc
      injection htx with hte
      subst hte
      exact ⟨by rw [hres]; exact hpc, by rw [hres]⟩
    · intro hf0
      exact AttemptOutcome.noConfusion hf0
    · intro hf0
      exact AttemptOutcome.noConfusion hf0
  | okNonText =>
    have hres : call_anthropic_api jl oracle = ⟨.success [], [], 1⟩ := by
      simp [call_anthropic_api, callGo, h0]
    refine ⟨by simp [hres], by rw [hres]; rfl, by rw [hres]; rfl, ?_, ?_, ?_, ?_⟩
    · intro hf0
      exact AttemptOutcome.noConfusion hf0
    · intro t htx
      exact absurd htx (by simp)
    · intro hf0
      exact AttemptOutcome.noConfusion hf0
    · intro hf0
      exact AttemptOutcome.noConfusion hf0
  | fail =>
    cases h1 : oracle 1 with
    | okText t1 =>
      have hres : call_anthropic_api jl oracle
          = ⟨processContent jl t1, [1], 2⟩ := by
        simp [call_anthropic_api, callGo, h0, h1]
      refine ⟨by simp [hres], by rw [hres]; rfl, by rw [hres]; rfl, ?_, ?_, ?_, ?_⟩
      · intro _ hf1
        exact AttemptOutcome.noConfusion hf1
      · intro t htx
        exact absurd htx (by simp)
      · intro _ t htx hpc
        injection htx with hte
        subst hte
        exact ⟨by rw [hres]; exact hpc, by rw [hres]⟩
      · intro _ hf1
        exact AttemptOutcome.noConfusion hf1
    | okNonText =>
      have hres : call_anthropic_api jl oracle = ⟨.success [], [1], 2⟩ := by
        simp [call_anthropic_api, callGo, h0, h1]
      refine ⟨by simp [hres], by rw [hres]; rfl, by rw [hres]; rfl, ?_, ?_, ?_, ?_⟩
      · intro _ hf1
        exact AttemptOutcome.noConfusion hf1
      · intro t htx
        exact absurd htx (by simp)
      · intro _ t htx
        exact absurd htx (by simp)
      · intro _ hf1
        exact AttemptOutcome.noConfusion hf1
    | fail =>
      cases h2 : oracle 2 with
      | okText t2 =>
        have hres : call_anthropic_api jl oracle
            = ⟨processContent jl t2, [1, 2], 3⟩ := by
          simp [call_anthropic_api, callGo, h0, h1, h2]
        refine ⟨by simp [hres], by rw [hres]; rfl, by rw [hres]; rfl, ?_, ?_, ?_, ?_⟩
        · intro _ _ hf2
          exact AttemptOutcome.noConfusion hf2
        · intro t htx
          exact absurd htx (by simp)
        · intro _ t htx
          exact absurd htx (by simp)
        · intro _ _ t htx hpc
          injection htx with hte
          subst hte
          exact ⟨by rw [hres]; exact hpc, by rw [hres]⟩
      | okNonText =>
        have hres : call_anthropic_api jl oracle = ⟨.success [], [1, 2], 3⟩ := by
          simp [call_anthropic_api, callGo, h0, h1, h2]
        refine ⟨by simp [hres], by rw [hres]; rfl, by rw [hres]; rfl, ?_, ?_, ?_, ?_⟩
        · intro _ _ hf2
          exact AttemptOutcome.noConfusion hf2
        · intro t htx
          exact absurd htx (by simp)
        · intro _ t htx
          exact absurd htx (by simp)
        · intro _ _ t htx
          exact absurd htx (by simp)
      | fail =>
        have hres : call_anthropic_api jl oracle = ⟨.apiError, [1, 2], 3⟩ := by
          simp [call_anthropic_api, callGo, h0, h1, h2]
        refine ⟨by simp [hres], by rw [hres]; rfl, by rw [hres]; rfl, ?_, ?_, ?_, ?_⟩
        · intro _ _ _
          rw [hres]
        · intro t htx
          exact absurd htx (by simp)
        · intro _ t htx
          exact absurd htx (by simp)
        · intro _ _ t htx
          exact absurd htx (by simp)

/-- Witness for C7: with a client failing all three attempts, at most
3 attempts are made, the error propagates, and the delays follow the
doubling schedule; with a first-attempt response that fails to parse,
the parse error surfaces after exactly one attempt. -/
theorem c7_retry_policy_witness :
    (call_anthropic_api (fun _ => none) (fun _ => AttemptOutcome.fail)).attempts ≤ 3
    ∧ (call_anthropic_api (fun _ => none) (fun _ => AttemptOutcome.fail)).outcome
        = CallOutcome.apiError
    ∧ (call_anthropic_api (fun _ => none) (fun _ => AttemptOutcome.fail)).delays
        = (List.range (call_anthropic_api (fun _ => none)
            (fun _ => AttemptOutcome.fail)).delays.length).map (2 ^ ·)
    ∧ (call_anthropic_api (fun _ => none)
        (fun _ => AttemptOutcome.okText "not json")).outcome = CallOutcome.parseError
    ∧ (call_anthropic_api (fun _ => none)
        (fun _ => AttemptOutcome.okText "not json")).attempts = 1 := by
  have h := c7_retry_policy (fun _ => none) (fun _ => AttemptOutcome.fail)
  have h2 := c7_retry_policy (fun _ => none) (fun _ => AttemptOutcome.okText "not json")
  have hpc : processContent (fun _ => none) "not json" = CallOutcome.parseError := rfl
  have h2p := h2.2.2.2.2.1 "not json" rfl hpc
  exact ⟨h.1, h.2.2.2.1 rfl rfl rfl, h.2.2.1, h2p.1, h2p.2⟩

/-- Claim C10: a successful response whose repaired text parses to a
non-list JSON value is not an error: the value is wrapped in a
one-element list. -/
theorem c10_wrap_non_list (jl : String → Option JValue) (oracle : ℕ → AttemptOutcome)
    (t : String) (h0 : oracle 0 = .okText t) (hne : pyStrip t ≠ "")
    (v : JValue) (hv : jl (extract_json_from_response (pyStrip t)) = some v)
    (hnl : isArrB v = false) :
    (call_anthropic_api jl oracle).outcome = .success [v] := by
  have hres : call_anthropic_api jl oracle = ⟨processContent jl t, [], 1⟩ := by
    simp [call_anthropic_api, callGo, h0]
  rw [hres]
  show processContent jl t = .success [v]
  simp only [processContent, if_neg hne, hv]
  have hw : pyWrapList v = [v] := by
    cases v <;> simp [pyWrapList] <;> simp [isArrB] at hnl
  rw [hw]

/-- Witness for C10: a provider answer parsing to a single JSON object
is delivered as a one-element list. -/
theorem c10_wrap_non_list_witness :
    (call_anthropic_api (fun _ => some (JValue.obj []))
      (fun _ => AttemptOutcome.okText "x")).outcome
      = CallOutcome.success [JValue.obj []] := by
  exact c10_wrap_non_list _ _ "x" rfl (by decide) (JValue.obj []) rfl rfl

/-- Claim C9: a 404 HEAD probe whose fallback GET also fails sends
resolution to the packaged copy, and resolution only fails when the
remote probe, the packaged copy and the development copy all fail. -/
theorem c9_packaged_fallback (env : DocEnv) (c : String)
    (hhead : env.head = .ok 404) (hget : env.get = .error ())
    (hpkg : env.packaged = some c) :
    get_optimization_patterns_from_docs env false
      = .ok (wrap_documentation_for_prompt c githubDocUrl "packaged documentation" false)
    ∧ ∀ env2 : DocEnv,
        ((get_optimization_patterns_from_docs env2 false).isOk = false ↔
          (try_fetch_remote_documentation env2 = false ∧ env2.packaged = none
            ∧ env2.development = none)) := by
  constructor
  · have hrem : try_fetch_remote_documentation env = false := by
      simp [try_fetch_remote_documentation, hhead, hget]
    simp [get_optimization_patterns_from_docs, hrem, load_documentation_content, hpkg]
  · intro env2
    by_cases hr : try_fetch_remote_documentation env2 = true
    · simp [get_optimization_patterns_from_docs, hr, Except.isOk, Except.toBool]
    · have hr2 : try_fetch_remote_documentation env2 = false := by
        cases hb : try_fetch_remote_documentation env2
        · rfl
        · exact absurd hb hr
      cases hp : env2.packaged with
      | some c2 =>
        simp [get_optimization_patterns_from_docs, hr2, load_documentation_content, hp,
          Except.isOk, Except.toBool]
      | none =>
        cases hd : env2.development with
        | some c3 =>
          simp [get_optimization_patterns_from_docs, hr2, load_documentation_content,
            hp, hd, Except.isOk, Except.toBool]
        | none =>
          simp [get_optimization_patterns_from_docs, hr2, load_documentation_content,
            hp, hd, Except.isOk, Except.toBool]

/-- Witness for C9: the concrete 404-with-failed-GET environment
resolves to the wrapped packaged copy. -/
theorem c9_packaged_fallback_witness :
    get_optimization_patterns_from_docs
      ⟨Except.ok 404, Except.error (), some "DOC", none⟩ false
      = .ok (wrap_documentation_for_prompt "DOC" githubDocUrl
          "packaged documentation" false) :=
  (c9_packaged_fallback ⟨Except.ok 404, Except.error (), some "DOC", none⟩ "DOC"
    rfl rfl rfl).1
